import Mathlib

/-!
Verification development for the Arena trace-logging pipeline
(`src/trace_logging/`): a shallow embedding of its configuration,
context-propagation, emitter, async-buffer, span-manager and analysis
layers, with theorems settling the specified properties.

Conventions of the embedding:
* Python `str` is `String`, `int` is `Int`/`Nat`, `float` samples are `ℚ`
  (JSON number literals are exact decimals, so `ℚ` represents them exactly).
* `None`-able values are `Option`; a Python exception escaping a function is
  an `Except`/`Option` failure value.
* Process-global mutable state (the configuration singleton, the queue, the
  persisted file) is threaded explicitly as state values.
* `uuid.uuid4()` and `datetime.utcnow()` are modelled by explicit supplies
  (a fresh-id counter and a timestamp argument).
* Filesystem side effects (`mkdir`, file handles, rotation) are outside the
  embedded fragment; the persisted file is a list of appended records.
-/

/-! ## Pythonic JSON values (model of `json.loads` results) -/

/-- JSON value as produced by Python's `json` module; numbers are kept as
exact rationals (JSON literals are decimal). -/
inductive Json where
  | null : Json
  | bool (b : Bool) : Json
  | num (q : ℚ) : Json
  | str (s : String) : Json
  | arr (elems : List Json) : Json
  | obj (fields : List (String × Json)) : Json

/-- Python truthiness (`if value:`) for JSON-shaped values: `None`, `False`,
`0`, `""`, `[]` and `{}` are falsy. -/
def Json.isTruthy : Json → Bool
  | .null => false
  | .bool b => b
  | .num q => q ≠ 0
  | .str s => s ≠ ""
  | .arr l => !l.isEmpty
  | .obj l => !l.isEmpty

/-- Python `value == s` where `s` is a `str`: true only for an equal string. -/
def Json.eqStr : Json → String → Bool
  | .str t, s => t = s
  | _, _ => false

/-- Python dict lookup (`d.get(k)` / `k in d`) on a dict modelled as an
association list; keys of a Python dict are unique, so first match. -/
def dictLookup {β : Type} (k : String) : List (String × β) → Option β
  | [] => none
  | p :: rest => if p.1 = k then some p.2 else dictLookup k rest

/-- Python `d.get(k)` on a JSON value: `none` models the `AttributeError`
raised when the value is not a dict; `some r` is the lookup result. -/
def Json.dictGet : Json → String → Option (Option Json)
  | .obj fields, k => some (dictLookup k fields)
  | _, _ => none

/-- Numeric view of a JSON value (`none` for non-numbers). -/
def Json.asNum : Json → Option ℚ
  | .num q => some q
  | _ => none

/-! ## Configuration (`src/trace_logging/config.py`) -/

/-- Log levels (`config.LogLevel`). -/
inductive LogLevelE where
  | DEBUG | INFO | WARNING | ERROR | CRITICAL
deriving DecidableEq, Repr

/-- Numeric value of a level in Python's `logging` module, as produced by
`TraceLogger._get_log_level`'s `level_map`. -/
def LogLevelE.toNat : LogLevelE → Nat
  | .DEBUG => 10
  | .INFO => 20
  | .WARNING => 30
  | .ERROR => 40
  | .CRITICAL => 50

/-- Configuration dataclass (`config.LogConfig`); `trace_dir` is kept as a
plain string, and the directory-creation side effects of `__post_init__`
are outside the embedding. -/
structure LogConfig where
  trace_dir : String
  log_level : LogLevelE
  max_bytes : Nat
  backup_count : Nat
  use_json : Bool
  include_timestamp : Bool
  include_trace_id : Bool
  include_context : Bool
  async_logging : Bool
  buffer_size : Nat
  components : List (String × LogLevelE)
deriving DecidableEq, Repr

/-- Per-category defaults installed by `LogConfig.__post_init__` when no
`components` mapping is supplied. -/
def defaultComponents : List (String × LogLevelE) :=
  [("agents", .INFO), ("simulation", .INFO), ("performance", .DEBUG),
   ("errors", .ERROR), ("experiments", .INFO), ("integration", .INFO),
   ("system", .INFO)]

/-- `LogConfig()` with every field at its dataclass default,
`__post_init__` applied. -/
def defaultLogConfig : LogConfig :=
  { trace_dir := "trace"
    log_level := .INFO
    max_bytes := 100 * 1024 * 1024
    backup_count := 30
    use_json := true
    include_timestamp := true
    include_trace_id := true
    include_context := true
    async_logging := true
    buffer_size := 1000
    components := defaultComponents }

/-- State of the module-level `_global_config` variable. -/
structure ConfigState where
  global_config : Option LogConfig
deriving DecidableEq, Repr

/-- `config.configure_logging`: substitutes the default for `None`,
unconditionally stores the argument into `_global_config`, and returns it. -/
def configure_logging (config : Option LogConfig) (_s : ConfigState) :
    LogConfig × ConfigState :=
  let c := config.getD defaultLogConfig
  (c, ⟨some c⟩)

/-- `config.get_config`: returns the stored configuration, first storing a
fresh default via `configure_logging()` when none exists yet. -/
def get_config (s : ConfigState) : LogConfig × ConfigState :=
  match s.global_config with
  | some c => (c, s)
  | none => configure_logging none s

/-! ## Bounded queue (`queue.Queue`, as used by `AsyncLogHandler`) -/

/-- Bounded FIFO queue (`queue.Queue(maxsize)`). -/
structure PyQueue (α : Type) where
  maxsize : Nat
  items : List α
deriving Repr

/-- `Queue.put_nowait`: fails (raises `queue.Full`, the `error` branch) when
`maxsize > 0` and the queue already holds `maxsize` items; otherwise appends. -/
def PyQueue.put_nowait {α} (q : PyQueue α) (x : α) : Except Unit (PyQueue α) :=
  if 0 < q.maxsize ∧ q.maxsize ≤ q.items.length then
    .error ()
  else
    .ok { q with items := q.items ++ [x] }

/-- `AsyncLogHandler.emit` (`logger.py` lines 88–94): a single
`put_nowait` attempt whose exception is swallowed, leaving the queue
untouched; the function is total — nothing propagates to the caller. -/
def AsyncLogHandler.emit {α} (q : PyQueue α) (record : α) : PyQueue α :=
  match q.put_nowait record with
  | .ok q' => q'
  | .error _ => q

/-! ## Trace context (`src/trace_logging/context.py`) -/

/-- Trace context dataclass (`context.TraceContext`). `uuid.uuid4()` trace
ids are modelled as naturals drawn from a fresh-id supply, and
`datetime.utcnow()` timestamps as integers. -/
structure TraceContext where
  trace_id : Nat
  parent_trace_id : Option Nat
  session_id : Option String
  agent_id : Option String
  experiment_id : Option String
  user_id : Option String
  simulation_step : Option Int
  metadata : List (String × Json)
  created_at : Int

/-- Keyword arguments accepted by `TraceContext.create_child` and
`trace_context(...)`: the outer `Option` is key presence (`key in kwargs`),
the inner value is what the caller passed (itself `None`-able). Unknown
extra keys are silently ignored by `create_child`, so they are not
modelled. -/
structure CtxKwargs where
  session_id : Option (Option String)
  agent_id : Option (Option String)
  experiment_id : Option (Option String)
  user_id : Option (Option String)
  simulation_step : Option (Option Int)
  metadata : Option (List (String × Json))

/-- Empty keyword-argument set (a bare `create_child()` call). -/
def CtxKwargs.empty : CtxKwargs := ⟨none, none, none, none, none, none⟩

/-- Python truthiness of an `Optional[str]`: `None` and `""` are falsy. -/
def pyTruthyStr : Option String → Bool
  | none => false
  | some s => s ≠ ""

/-- Python truthiness of an `Optional[int]`: `None` and `0` are falsy. -/
def pyTruthyInt : Option Int → Bool
  | none => false
  | some n => n ≠ 0

/-- Python `a or b` on `Optional[str]` values. -/
def pyOrStr (a b : Option String) : Option String :=
  if pyTruthyStr a then a else b

/-- Python `a or b` on `Optional[int]` values. -/
def pyOrInt (a b : Option Int) : Option Int :=
  if pyTruthyInt a then a else b

/-- Assignment `d[k] = v` on a Python dict modelled as an association list:
replaces the value at an existing key, else appends the new pair. -/
def dictSet (d : List (String × Json)) (k : String) (v : Json) :
    List (String × Json) :=
  if d.any (fun p => p.1 = k) then
    d.map (fun p => if p.1 = k then (k, v) else p)
  else
    d ++ [(k, v)]

/-- Python `{**a, **b}`: entries of `b` inserted into `a` in order, later
keys winning. -/
def pyDictMerge (a b : List (String × Json)) : List (String × Json) :=
  b.foldl (fun d p => dictSet d p.1 p.2) a

/-- `TraceContext.create_child` (`context.py` lines 69–86): first the
`child_data` dictionary is built with `parent-or-kwargs` (`or` is Python
truthiness), then the explicit-override loop replaces each of the five
optional fields that is present in `kwargs`. `freshId` models the
`uuid.uuid4()` default for `trace_id`, `now` the `utcnow` default for
`created_at`. -/
def TraceContext.create_child (self : TraceContext) (kwargs : CtxKwargs)
    (freshId : Nat) (now : Int) : TraceContext :=
  let base_session := pyOrStr self.session_id kwargs.session_id.join
  let base_agent := pyOrStr self.agent_id kwargs.agent_id.join
  let base_experiment := pyOrStr self.experiment_id kwargs.experiment_id.join
  let base_user := pyOrStr self.user_id kwargs.user_id.join
  let base_step := pyOrInt self.simulation_step kwargs.simulation_step.join
  { trace_id := freshId
    parent_trace_id := some self.trace_id
    session_id := kwargs.session_id.getD base_session
    agent_id := kwargs.agent_id.getD base_agent
    experiment_id := kwargs.experiment_id.getD base_experiment
    user_id := kwargs.user_id.getD base_user
    simulation_step := kwargs.simulation_step.getD base_step
    metadata := pyDictMerge self.metadata (kwargs.metadata.getD [])
    created_at := now }

/-- `trace_context.__enter__` (`context.py` lines 128–137): with a previous
ambient context (dataclass instances are always truthy) the installed
context is a child of it; otherwise a fresh root `TraceContext(**kwargs)`
is built directly from the keyword arguments. -/
def trace_context_enter (kwargs : CtxKwargs) (previous : Option TraceContext)
    (freshId : Nat) (now : Int) : TraceContext :=
  match previous with
  | some p => p.create_child kwargs freshId now
  | none =>
      { trace_id := freshId
        parent_trace_id := none
        session_id := kwargs.session_id.getD none
        agent_id := kwargs.agent_id.getD none
        experiment_id := kwargs.experiment_id.getD none
        user_id := kwargs.user_id.getD none
        simulation_step := kwargs.simulation_step.getD none
        metadata := kwargs.metadata.getD []
        created_at := now }

/-! ## Structured logger (`src/trace_logging/logger.py`) -/

/-- Python exception value as observed by the tracing code: its type name
and message. -/
structure PyExc where
  type : String
  message : String
deriving DecidableEq, Repr

/-- Record flowing through the logging pipeline: the fields
`StructuredFormatter.format` serializes (timestamp aside) — level, event,
message, data, the ambient-context snapshot, and the in-flight exception
captured when `exc_info` was set. -/
structure LogRecordM where
  level : Nat
  event : String
  message : String
  data : List (String × Json)
  ctx : TraceContext
  exc : Option PyExc

/-- Handlers attachable to a Python logger in this pipeline. -/
inductive HandlerRef where
  | file | async
deriving DecidableEq, Repr

/-- Mutable sinks owned by one `TraceLogger`: the persisted `.jsonl` file
(list of appended records) and the `AsyncLogHandler`'s bounded queue. -/
structure SinkState where
  file : List LogRecordM
  asyncQueue : PyQueue LogRecordM

/-- `TraceLogger._get_log_level` (`logger.py` lines 137–152):
`components.get(category, log_level)` then the numeric `level_map` (every
enum member is in the map, so its `INFO` fallback is unreachable). -/
def TraceLogger.getLogLevel (config : LogConfig) (category : String) : Nat :=
  ((dictLookup category config.components).getD config.log_level).toNat

/-- Handler-visible state of one `TraceLogger` after `__init__`
(`logger.py` lines 113–135): the logger's level is set from
`_get_log_level`; `_setup_file_handler` attaches the rotating file handler
via `addHandler`; `_setup_async_handler` (run only when
`config.async_logging`) creates and starts an `AsyncLogHandler` but never
attaches it to the logger nor removes the file handler. -/
structure TraceLoggerM where
  component : String
  category : String
  effectiveLevel : Nat
  handlers : List HandlerRef
  asyncHandlerStarted : Bool

/-- `TraceLogger.__init__` as it affects the dispatch path. -/
def TraceLogger.init (config : LogConfig) (component category : String) :
    TraceLoggerM :=
  { component := component
    category := category
    effectiveLevel := TraceLogger.getLogLevel config category
    handlers := [.file]
    asyncHandlerStarted := config.async_logging }

/-- Sinks of a freshly constructed `TraceLogger`: empty file, empty async
queue bounded by `config.buffer_size`. -/
def TraceLogger.initSink (config : LogConfig) : SinkState :=
  { file := [], asyncQueue := ⟨config.buffer_size, []⟩ }

/-- Delivery of one record to one attached handler: the rotating file
handler appends to the file synchronously; an (hypothetically attached)
async handler would enqueue via `AsyncLogHandler.emit`. -/
def handlerEmit : HandlerRef → LogRecordM → SinkState → SinkState
  | .file, r, st => { st with file := st.file ++ [r] }
  | .async, r, st => { st with asyncQueue := AsyncLogHandler.emit st.asyncQueue r }

/-- `logging.Logger.callHandlers`: the record is offered to every attached
handler in order. -/
def Logger.callHandlers (lg : TraceLoggerM) (r : LogRecordM) (st : SinkState) :
    SinkState :=
  lg.handlers.foldl (fun s h => handlerEmit h r s) st

/-- `logging.Logger.log`: `isEnabledFor` drops the call before any record
creation or handler I/O when the requested level is below the logger's
effective level. -/
def Logger.logDispatch (lg : TraceLoggerM) (level : Nat) (r : LogRecordM)
    (st : SinkState) : SinkState :=
  if lg.effectiveLevel ≤ level then Logger.callHandlers lg r st else st

/-- `TraceLogger._log` (`logger.py` lines 179–197): packs event/data into
the record, defaults an empty message to the event name, and calls
`Logger.log`. The ambient context `ctx` is what
`StructuredFormatter.format` snapshots at emission. -/
def TraceLogger.logM (lg : TraceLoggerM) (level : Nat) (event message : String)
    (data : List (String × Json)) (ctx : TraceContext) (st : SinkState) :
    SinkState :=
  let msg := if message = "" then event else message
  Logger.logDispatch lg level
    { level := level, event := event, message := msg, data := data,
      ctx := ctx, exc := none } st

/-! ## Span manager (`src/trace_logging/manager.py`) -/

/-- `TraceManager.trace_operation` (`manager.py` lines 34–94), evaluated
over the outcome `body` of the wrapped block. Inputs model the ambient
supplies: `parent` is the context returned by `get_trace_context()`,
`freshId`/`now` feed the child context, `duration` is the elapsed-seconds
measurement. Each record's `data` is the Python dict literal
`{'operation': ..., ..., **context_kwargs}`: the caller's context kwargs
are merged last and win on key collision with the span's fixed keys
(including `error_type`/`error_message`), while the `exc_info=True` path of
`logger.exception` captures the in-flight exception itself regardless. The
result is (records emitted by the span itself, ambient context after the
`finally` block, outcome delivered to the caller). -/
def TraceManager.trace_operation (operation : String) (kwargs : CtxKwargs)
    (kwData : List (String × Json)) (parent : TraceContext)
    (freshId : Nat) (now : Int) (duration : ℚ)
    (body : Except PyExc Unit) :
    List LogRecordM × TraceContext × Except PyExc Unit :=
  let ctx := parent.create_child kwargs freshId now
  let startRec : LogRecordM :=
    { level := 20, event := operation ++ ".start",
      message := operation ++ ".start",
      data := pyDictMerge [("operation", .str operation)] kwData,
      ctx := ctx, exc := none }
  match body with
  | .ok _ =>
      let completeRec : LogRecordM :=
        { level := 20, event := operation ++ ".complete",
          message := operation ++ ".complete",
          data := pyDictMerge
            [("operation", .str operation),
             ("duration_seconds", .num duration)] kwData,
          ctx := ctx, exc := none }
      ([startRec, completeRec], parent, .ok ())
  | .error e =>
      let errorRec : LogRecordM :=
        { level := 40, event := operation ++ ".error",
          message := operation ++ ".error",
          data := pyDictMerge
            [("operation", .str operation),
             ("duration_seconds", .num duration),
             ("error_type", .str e.type),
             ("error_message", .str e.message)] kwData,
          ctx := ctx, exc := some e }
      ([startRec, errorRec], parent, .error e)

/-! ## Helper lemmas on dict operations and event names -/

/-- Cancellation of a common prefix in string concatenation. -/
theorem str_append_cancel {s a b : String} (h : s ++ a = s ++ b) : a = b := by
  have hd := congrArg String.data h
  simp only [String.data_append] at hd
  exact String.ext (List.append_cancel_left hd)

/-- Replacing the value at a present key is found by lookup. -/
theorem dictLookup_map_set {d : List (String × Json)} {k : String} (v : Json)
    (h : d.any (fun p => p.1 = k) = true) :
    dictLookup k (d.map (fun p => if p.1 = k then (k, v) else p)) = some v := by
  induction d with
  | nil => simp at h
  | cons p rest ih =>
    by_cases hp : p.1 = k
    · simp [dictLookup, hp]
    · have h' : rest.any (fun p => p.1 = k) = true := by
        simpa [List.any_cons, hp] using h
      simp [dictLookup, hp, ih h']

/-- Mapping the set-at-`k` replacement never changes lookups at other keys. -/
theorem dictLookup_map_set_ne {d : List (String × Json)} {k k' : String}
    (v : Json) (hne : k' ≠ k) :
    dictLookup k' (d.map (fun p => if p.1 = k then (k, v) else p)) =
      dictLookup k' d := by
  induction d with
  | nil => rfl
  | cons p rest ih =>
    by_cases hp : p.1 = k
    · have hnk : ¬(k = k') := fun hh => hne hh.symm
      simp [dictLookup, hp, hnk, ih]
    · simp [dictLookup, hp, ih]

/-- Lookup distributes over append when the key is absent on the left. -/
theorem dictLookup_append_of_none {d : List (String × Json)} {k : String}
    (rest : List (String × Json)) (h : dictLookup k d = none) :
    dictLookup k (d ++ rest) = dictLookup k rest := by
  induction d with
  | nil => rfl
  | cons p d' ih =>
    by_cases hp : p.1 = k
    · simp [dictLookup, hp] at h
    · simp [dictLookup, hp] at h ⊢
      exact ih h

/-- Lookup over append is left-biased on a present key. -/
theorem dictLookup_append_of_some {d : List (String × Json)} {k : String}
    {v : Json} (rest : List (String × Json)) (h : dictLookup k d = some v) :
    dictLookup k (d ++ rest) = some v := by
  induction d with
  | nil => simp [dictLookup] at h
  | cons p d' ih =>
    by_cases hp : p.1 = k
    · simp [dictLookup, hp] at h ⊢; exact h
    · simp [dictLookup, hp] at h ⊢; exact ih h

/-- Key presence via `any` agrees with lookup success. -/
theorem dictLookup_any_eq_isSome (d : List (String × Json)) (k : String) :
    d.any (fun p => p.1 = k) = (dictLookup k d).isSome := by
  induction d with
  | nil => rfl
  | cons p rest ih =>
    by_cases hp : p.1 = k <;> simp [dictLookup, hp, List.any_cons, ih]

/-- Keys whose presence test fails lookup to `none`. -/
theorem dictLookup_none_of_any_false {d : List (String × Json)} {k : String}
    (h : d.any (fun p => p.1 = k) = false) : dictLookup k d = none := by
  cases hcase : dictLookup k d with
  | none => rfl
  | some v => rw [dictLookup_any_eq_isSome, hcase] at h; simp at h

/-- `dictSet` makes `k` map to `v`. -/
theorem dictLookup_dictSet_self (d : List (String × Json)) (k : String)
    (v : Json) : dictLookup k (dictSet d k v) = some v := by
  unfold dictSet
  by_cases hany : d.any (fun p => p.1 = k) = true
  · simp [hany, dictLookup_map_set v hany]
  · have hf : d.any (fun p => p.1 = k) = false := by
      revert hany; cases d.any (fun p => p.1 = k) <;> simp
    rw [hf]
    simp only [Bool.false_eq_true, if_false]
    rw [dictLookup_append_of_none _ (dictLookup_none_of_any_false hf)]
    simp [dictLookup]

/-- `dictSet` at a different key leaves a lookup unchanged. -/
theorem dictLookup_dictSet_ne (d : List (String × Json)) {k k' : String}
    (v : Json) (hne : k' ≠ k) :
    dictLookup k' (dictSet d k v) = dictLookup k' d := by
  unfold dictSet
  by_cases hany : d.any (fun p => p.1 = k) = true
  · simp [hany, dictLookup_map_set_ne v hne]
  · have hf : d.any (fun p => p.1 = k) = false := by
      revert hany; cases d.any (fun p => p.1 = k) <;> simp
    rw [hf]
    simp only [Bool.false_eq_true, if_false]
    cases hcase : dictLookup k' d with
    | some v' => rw [dictLookup_append_of_some _ hcase]
    | none =>
        rw [dictLookup_append_of_none _ hcase]
        have hnk : ¬(k = k') := fun hh => hne hh.symm
        simp [dictLookup, hnk]

/-- Keys absent from the merged-in dict keep their original binding. -/
theorem pyDictMerge_lookup_of_none {b : List (String × Json)} {k : String}
    (a : List (String × Json)) (h : dictLookup k b = none) :
    dictLookup k (pyDictMerge a b) = dictLookup k a := by
  induction b generalizing a with
  | nil => rfl
  | cons p b' ih =>
    by_cases hp : p.1 = k
    · simp [dictLookup, hp] at h
    · simp [dictLookup, hp] at h
      show dictLookup k (pyDictMerge (dictSet a p.1 p.2) b') = dictLookup k a
      rw [ih _ h, dictLookup_dictSet_ne _ _ (fun hh => hp hh.symm)]

/-- Keys absent from a dict's key list fail lookup. -/
theorem dictLookup_none_of_not_mem {b : List (String × Json)} {k : String}
    (h : k ∉ b.map Prod.fst) : dictLookup k b = none := by
  induction b with
  | nil => rfl
  | cons p b' ih =>
    rw [List.map_cons, List.mem_cons] at h
    push_neg at h
    have hp : ¬p.1 = k := fun hh => h.1 hh.symm
    simp [dictLookup, hp, ih h.2]

/-- Keys present in the merged-in dict (with duplicate-free keys, as a
Python dict guarantees) win in the merge. -/
theorem pyDictMerge_lookup_of_some {b : List (String × Json)} {k : String}
    {v : Json} (a : List (String × Json))
    (hnd : (b.map Prod.fst).Nodup) (h : dictLookup k b = some v) :
    dictLookup k (pyDictMerge a b) = some v := by
  induction b generalizing a with
  | nil => simp [dictLookup] at h
  | cons p b' ih =>
    rw [List.map_cons, List.nodup_cons] at hnd
    by_cases hp : p.1 = k
    · simp [dictLookup, hp] at h
      have hnone : dictLookup k b' = none :=
        dictLookup_none_of_not_mem (hp ▸ hnd.1)
      show dictLookup k (pyDictMerge (dictSet a p.1 p.2) b') = some v
      rw [pyDictMerge_lookup_of_none _ hnone, hp, h, dictLookup_dictSet_self]
    · simp [dictLookup, hp] at h
      show dictLookup k (pyDictMerge (dictSet a p.1 p.2) b') = some v
      exact ih _ hnd.2 h

/-- Terminal-record predicate for a span named `operation`: its event is
the `.complete` or `.error` form. -/
def isTerminalEvent (operation e : String) : Bool :=
  decide (e = operation ++ ".complete") || decide (e = operation ++ ".error")

/-- Start records are not terminal records. -/
theorem isTerminalEvent_start (operation : String) :
    isTerminalEvent operation (operation ++ ".start") = false := by
  have h1 : operation ++ ".start" ≠ operation ++ ".complete" := fun h =>
    absurd (str_append_cancel h) (by decide)
  have h2 : operation ++ ".start" ≠ operation ++ ".error" := fun h =>
    absurd (str_append_cancel h) (by decide)
  simp [isTerminalEvent, h1, h2]

/-- Completion records are terminal. -/
theorem isTerminalEvent_complete (operation : String) :
    isTerminalEvent operation (operation ++ ".complete") = true := by
  simp [isTerminalEvent]

/-- Error records are terminal. -/
theorem isTerminalEvent_error (operation : String) :
    isTerminalEvent operation (operation ++ ".error") = true := by
  simp [isTerminalEvent]

/-! ## Concrete fixtures for witnesses and counterexamples -/

/-- Root context used in concrete evaluations. -/
def rootCtx : TraceContext :=
  { trace_id := 0, parent_trace_id := none, session_id := none,
    agent_id := none, experiment_id := none, user_id := none,
    simulation_step := none, metadata := [], created_at := 0 }

/-- Non-default configuration: differs from the default in its global level. -/
def cfgDebug : LogConfig := { defaultLogConfig with log_level := .DEBUG }

/-- Parent context sitting at simulation step 0. -/
def parentStep0 : TraceContext := { rootCtx with simulation_step := some 0 }

/-- Parent context with truthy session and agent ids. -/
def parentW : TraceContext :=
  { rootCtx with session_id := some "s1", agent_id := some "a1" }

/-- Keyword arguments overriding `agent_id` and passing metadata. -/
def kwargsW : CtxKwargs :=
  { session_id := none, agent_id := some (some "a2"), experiment_id := none,
    user_id := none, simulation_step := none,
    metadata := some [("k", Json.str "v")] }

/-- Exception thrown by the wrapped block in span-contract evaluations. -/
def excBoom : PyExc := { type := "ValueError", message := "boom" }

/-! ## Claim theorems -/

/-- C1 (counterexample): `configure_logging` is not first-writer-wins. At a
concrete input the first call establishes the default configuration, yet a
second call with a different configuration returns that new configuration —
not the established one — and overwrites the global singleton. -/
theorem configure_logging_not_first_writer_wins :
    (configure_logging (some cfgDebug)
        (configure_logging (some defaultLogConfig) ⟨none⟩).2).1 ≠
      defaultLogConfig ∧
    (configure_logging (some cfgDebug)
        (configure_logging (some defaultLogConfig) ⟨none⟩).2).2.global_config =
      some cfgDebug ∧
    cfgDebug ≠ defaultLogConfig := by
  refine ⟨?_, rfl, ?_⟩ <;> decide

/-- C1 (amended): every `configure_logging` call installs its argument (or
a fresh default) as the process-wide configuration and returns it —
last-writer-wins — while `get_config` returns an already-established
instance unchanged and only creates (and stores) the default when no
configuration exists yet. -/
theorem configure_logging_last_writer_wins (cfg : Option LogConfig)
    (s : ConfigState) (c : LogConfig) :
    (configure_logging cfg s).2.global_config =
      some (configure_logging cfg s).1 ∧
    (configure_logging cfg s).1 = cfg.getD defaultLogConfig ∧
    (s.global_config = some c → get_config s = (c, s)) ∧
    (s.global_config = none →
      get_config s = (defaultLogConfig, ⟨some defaultLogConfig⟩)) := by
  refine ⟨rfl, rfl, ?_, ?_⟩ <;> intro h
  · obtain ⟨g⟩ := s
    cases h
    rfl
  · obtain ⟨g⟩ := s
    cases h
    rfl

/-- Witness for `configure_logging_last_writer_wins` at concrete states. -/
theorem configure_logging_last_writer_wins_witness :
    get_config ⟨none⟩ = (defaultLogConfig, ⟨some defaultLogConfig⟩) ∧
    get_config ⟨some cfgDebug⟩ = (cfgDebug, ⟨some cfgDebug⟩) :=
  ⟨(configure_logging_last_writer_wins none ⟨none⟩ defaultLogConfig).2.2.2 rfl,
   (configure_logging_last_writer_wins none ⟨some cfgDebug⟩ cfgDebug).2.2.1 rfl⟩

/-- C2 (code behavior at the failing input): with async logging enabled
(the default), the constructed logger's only attached handler is the
rotating file handler — `_setup_async_handler` creates and starts an
`AsyncLogHandler` but never attaches it to the logger — so a passing-level
emit appends the record to the persisted file synchronously on the
caller's path while the async queue receives nothing. -/
theorem async_logging_appends_synchronously :
    defaultLogConfig.async_logging = true ∧
    (TraceLogger.init defaultLogConfig "worker" "system").asyncHandlerStarted
      = true ∧
    (TraceLogger.init defaultLogConfig "worker" "system").handlers =
      [HandlerRef.file] ∧
    TraceLogger.logM (TraceLogger.init defaultLogConfig "worker" "system")
        20 "tick" "" [] rootCtx (TraceLogger.initSink defaultLogConfig) =
      { file := [{ level := 20, event := "tick", message := "tick",
                   data := [], ctx := rootCtx, exc := none }],
        asyncQueue := ⟨1000, []⟩ } :=
  ⟨rfl, rfl, rfl, rfl⟩

/-- C3 (counterexample): a child created with no overrides does not inherit
a falsy parent field — with `simulation_step = 0` in the parent, the
child's `simulation_step` becomes `None` instead of `0`, because
`create_child` inherits through Python `or`. -/
theorem create_child_drops_falsy_parent_field :
    parentStep0.simulation_step = some 0 ∧
    (parentStep0.create_child CtxKwargs.empty 1 1).simulation_step = none :=
  ⟨rfl, rfl⟩

/-- C3 (amended): for each optional field, the child's value equals the
explicitly passed override when one is given; with no override it equals
the parent's value when that value is truthy, and `None` when the parent's
value is falsy (`None`, `0`, `""`). Metadata is the Python
`{**parent, **passed}` merge: passed keys win on collision, other keys
keep the parent's binding. -/
theorem create_child_inheritance (parent : TraceContext) (kwargs : CtxKwargs)
    (g : Nat) (n : Int) :
    (∀ v, kwargs.session_id = some v →
      (parent.create_child kwargs g n).session_id = v) ∧
    (kwargs.session_id = none → pyTruthyStr parent.session_id = true →
      (parent.create_child kwargs g n).session_id = parent.session_id) ∧
    (kwargs.session_id = none → pyTruthyStr parent.session_id = false →
      (parent.create_child kwargs g n).session_id = none) ∧
    (∀ v, kwargs.agent_id = some v →
      (parent.create_child kwargs g n).agent_id = v) ∧
    (kwargs.agent_id = none → pyTruthyStr parent.agent_id = true →
      (parent.create_child kwargs g n).agent_id = parent.agent_id) ∧
    (kwargs.agent_id = none → pyTruthyStr parent.agent_id = false →
      (parent.create_child kwargs g n).agent_id = none) ∧
    (∀ v, kwargs.experiment_id = some v →
      (parent.create_child kwargs g n).experiment_id = v) ∧
    (kwargs.experiment_id = none → pyTruthyStr parent.experiment_id = true →
      (parent.create_child kwargs g n).experiment_id = parent.experiment_id) ∧
    (kwargs.experiment_id = none → pyTruthyStr parent.experiment_id = false →
      (parent.create_child kwargs g n).experiment_id = none) ∧
    (∀ v, kwargs.user_id = some v →
      (parent.create_child kwargs g n).user_id = v) ∧
    (kwargs.user_id = none → pyTruthyStr parent.user_id = true →
      (parent.create_child kwargs g n).user_id = parent.user_id) ∧
    (kwargs.user_id = none → pyTruthyStr parent.user_id = false →
      (parent.create_child kwargs g n).user_id = none) ∧
    (∀ v, kwargs.simulation_step = some v →
      (parent.create_child kwargs g n).simulation_step = v) ∧
    (kwargs.simulation_step = none → pyTruthyInt parent.simulation_step = true →
      (parent.create_child kwargs g n).simulation_step =
        parent.simulation_step) ∧
    (kwargs.simulation_step = none → pyTruthyInt parent.simulation_step = false →
      (parent.create_child kwargs g n).simulation_step = none) ∧
    (∀ k v, ((kwargs.metadata.getD []).map Prod.fst).Nodup →
      dictLookup k (kwargs.metadata.getD []) = some v →
      dictLookup k (parent.create_child kwargs g n).metadata = some v) ∧
    (∀ k, dictLookup k (kwargs.metadata.getD []) = none →
      dictLookup k (parent.create_child kwargs g n).metadata =
        dictLookup k parent.metadata) := by
  refine ⟨?_, ?_, ?_, ?_, ?_, ?_, ?_, ?_, ?_, ?_, ?_, ?_, ?_, ?_, ?_, ?_, ?_⟩
  · intro v h; simp [TraceContext.create_child, h]
  · intro h ht; simp [TraceContext.create_child, h, pyOrStr, ht, Option.join]
  · intro h hf; simp [TraceContext.create_child, h, pyOrStr, hf, Option.join]
  · intro v h; simp [TraceContext.create_child, h]
  · intro h ht; simp [TraceContext.create_child, h, pyOrStr, ht, Option.join]
  · intro h hf; simp [TraceContext.create_child, h, pyOrStr, hf, Option.join]
  · intro v h; simp [TraceContext.create_child, h]
  · intro h ht; simp [TraceContext.create_child, h, pyOrStr, ht, Option.join]
  · intro h hf; simp [TraceContext.create_child, h, pyOrStr, hf, Option.join]
  · intro v h; simp [TraceContext.create_child, h]
  · intro h ht; simp [TraceContext.create_child, h, pyOrStr, ht, Option.join]
  · intro h hf; simp [TraceContext.create_child, h, pyOrStr, hf, Option.join]
  · intro v h; simp [TraceContext.create_child, h]
  · intro h ht; simp [TraceContext.create_child, h, pyOrInt, ht, Option.join]
  · intro h hf; simp [TraceContext.create_child, h, pyOrInt, hf, Option.join]
  · intro k v hnd hl
    simp only [TraceContext.create_child]
    exact pyDictMerge_lookup_of_some _ hnd hl
  · intro k hl
    simp only [TraceContext.create_child]
    exact pyDictMerge_lookup_of_none _ hl

/-- Witness for `create_child_inheritance` on concrete contexts: inherited
truthy session id, explicit agent override, metadata entry from the child. -/
theorem create_child_inheritance_witness :
    (parentW.create_child kwargsW 5 3).session_id = some "s1" ∧
    (parentW.create_child kwargsW 5 3).agent_id = some "a2" ∧
    dictLookup "k" (parentW.create_child kwargsW 5 3).metadata =
      some (Json.str "v") := by
  obtain ⟨s_ov, s_tru, s_fal, a_ov, a_tru, a_fal, e_ov, e_tru, e_fal,
          u_ov, u_tru, u_fal, t_ov, t_tru, t_fal, m_some, m_none⟩ :=
    create_child_inheritance parentW kwargsW 5 3
  exact ⟨s_tru rfl (by decide), a_ov (some "a2") rfl,
         m_some "k" (Json.str "v") (by decide) rfl⟩

/-- C4: offering a record to `AsyncLogHandler.emit` while the bounded queue
is full silently drops it — the single `put_nowait` attempt raises
`queue.Full`, the handler swallows it (no exception reaches the caller, no
retry happens), and the queue's contents are unchanged. -/
theorem async_emit_full_queue_drops {α : Type} (q : PyQueue α) (r : α)
    (hpos : 0 < q.maxsize) (hfull : q.maxsize ≤ q.items.length) :
    AsyncLogHandler.emit q r = q := by
  simp [AsyncLogHandler.emit, PyQueue.put_nowait, hpos, hfull]

/-- Witness for `async_emit_full_queue_drops` on a concrete full queue. -/
theorem async_emit_full_queue_drops_witness :
    AsyncLogHandler.emit (⟨1, [0]⟩ : PyQueue Nat) 7 = ⟨1, [0]⟩ :=
  async_emit_full_queue_drops ⟨1, [0]⟩ 7 (by decide) (by decide)

/-- C5: a span opened by `trace_operation(name)` emits the `name.start`
record first, followed by exactly one terminal record — `name.complete` on
normal exit, `name.error` on exceptional exit, never both and never
neither — with every record snapshotting the same child context; on
exceptional exit the error record carries the exception's type and message:
always through the `exc_info=True` capture of `logger.exception` (the
`exception()` mechanism), and in its `error_type`/`error_message` data
fields whenever the caller's context kwargs do not shadow those keys
(colliding kwargs win the `{**fixed, **context_kwargs}` merge). The parent
context is restored on every exit path, and the wrapped operation's
outcome — in particular the original exception — is delivered to the
caller unchanged. -/
theorem trace_operation_span_contract (operation : String)
    (kwargs : CtxKwargs) (kwData : List (String × Json))
    (parent : TraceContext) (g : Nat) (n : Int) (dur : ℚ)
    (body : Except PyExc Unit) :
    ((TraceManager.trace_operation operation kwargs kwData parent g n dur
        body).1.head?.map (fun r => r.event) = some (operation ++ ".start")) ∧
    ((TraceManager.trace_operation operation kwargs kwData parent g n dur
        body).1.countP (fun r => isTerminalEvent operation r.event) = 1) ∧
    (∀ r ∈ (TraceManager.trace_operation operation kwargs kwData parent g n
        dur body).1, r.ctx = parent.create_child kwargs g n) ∧
    (body = .ok () → ∃ r ∈ (TraceManager.trace_operation operation kwargs
        kwData parent g n dur body).1,
      r.event = operation ++ ".complete") ∧
    (∀ e, body = .error e → ∃ r ∈ (TraceManager.trace_operation operation
        kwargs kwData parent g n dur body).1,
      r.event = operation ++ ".error" ∧
      r.exc = some e ∧
      (dictLookup "error_type" kwData = none →
        dictLookup "error_type" r.data = some (.str e.type)) ∧
      (dictLookup "error_message" kwData = none →
        dictLookup "error_message" r.data = some (.str e.message))) ∧
    ((TraceManager.trace_operation operation kwargs kwData parent g n dur
        body).2.1 = parent) ∧
    ((TraceManager.trace_operation operation kwargs kwData parent g n dur
        body).2.2 = body) := by
  cases body with
  | ok u =>
      cases u
      refine ⟨rfl, ?_, ?_, ?_, ?_, rfl, rfl⟩
      · show List.countP _ [_, _] = 1
        rw [List.countP_cons, List.countP_cons, List.countP_nil]
        simp [isTerminalEvent_start, isTerminalEvent_complete]
      · intro r hr
        simp only [TraceManager.trace_operation, List.mem_cons,
          List.not_mem_nil, or_false] at hr
        rcases hr with h | h <;> subst h <;> rfl
      · intro _
        exact ⟨_, List.mem_cons_of_mem _ (List.mem_cons_self _ _), rfl⟩
      · intro e h
        exact nomatch h
  | error e₀ =>
      refine ⟨rfl, ?_, ?_, ?_, ?_, rfl, rfl⟩
      · show List.countP _ [_, _] = 1
        rw [List.countP_cons, List.countP_cons, List.countP_nil]
        simp [isTerminalEvent_start, isTerminalEvent_error]
      · intro r hr
        simp only [TraceManager.trace_operation, List.mem_cons,
          List.not_mem_nil, or_false] at hr
        rcases hr with h | h <;> subst h <;> rfl
      · intro h
        exact nomatch h
      · intro e h
        injection h with he
        subst he
        refine ⟨_, List.mem_cons_of_mem _ (List.mem_cons_self _ _),
          rfl, rfl, ?_, ?_⟩
        · intro hnone
          dsimp only
          rw [pyDictMerge_lookup_of_none _ hnone]
          exact rfl
        · intro hnone
          dsimp only
          rw [pyDictMerge_lookup_of_none _ hnone]
          exact rfl

/-- Witness for `trace_operation_span_contract`: the exceptional branch at
a concrete failing body with no context kwargs, so the no-shadowing
hypotheses discharge to the concrete data fields. -/
theorem trace_operation_span_contract_witness :
    ∃ r ∈ (TraceManager.trace_operation "risky" CtxKwargs.empty [] rootCtx
        1 0 2 (.error excBoom)).1,
      r.event = "risky" ++ ".error" ∧
      r.exc = some excBoom ∧
      dictLookup "error_type" r.data = some (.str excBoom.type) ∧
      dictLookup "error_message" r.data = some (.str excBoom.message) := by
  obtain ⟨r, hmem, hev, hexc, ht, hm⟩ :=
    ((trace_operation_span_contract "risky" CtxKwargs.empty [] rootCtx 1 0 2
      (.error excBoom)).2.2.2.2.1) excBoom rfl
  exact ⟨r, hmem, hev, hexc, ht rfl, hm rfl⟩

/-- C6: a child context — whether from `create_child` or from entering a
`trace_context` scope inside an existing one — carries the freshly drawn
trace id (distinct from the parent's, the parent's id lying strictly below
the fresh-id supply), never the inherited one, and its `parent_trace_id` is
exactly the enclosing context's trace id; consequently every record emitted
by a span under the child snapshots a context whose `parent_trace_id` is
the enclosing scope's trace id. -/
theorem child_scope_fresh_trace_id (parent : TraceContext)
    (kwargs : CtxKwargs) (g : Nat) (n : Int) (operation : String)
    (kwData : List (String × Json)) (dur : ℚ) (body : Except PyExc Unit)
    (hfresh : parent.trace_id < g) :
    (parent.create_child kwargs g n).trace_id = g ∧
    (parent.create_child kwargs g n).trace_id ≠ parent.trace_id ∧
    (parent.create_child kwargs g n).parent_trace_id =
      some parent.trace_id ∧
    trace_context_enter kwargs (some parent) g n =
      parent.create_child kwargs g n ∧
    (∀ r ∈ (TraceManager.trace_operation operation kwargs kwData parent g n
        dur body).1,
      r.ctx.parent_trace_id = some parent.trace_id ∧ r.ctx.trace_id = g) := by
  refine ⟨rfl, ?_, rfl, rfl, ?_⟩
  · show (parent.create_child kwargs g n).trace_id ≠ parent.trace_id
    simp only [TraceContext.create_child]
    omega
  · intro r hr
    cases body <;>
      simp only [TraceManager.trace_operation, List.mem_cons,
        List.not_mem_nil, or_false] at hr <;>
      rcases hr with h | h <;> subst h <;> exact ⟨rfl, rfl⟩

/-- Witness for `child_scope_fresh_trace_id` at a concrete parent and
supply. -/
theorem child_scope_fresh_trace_id_witness :
    (rootCtx.create_child CtxKwargs.empty 1 0).trace_id ≠ rootCtx.trace_id :=
  (child_scope_fresh_trace_id rootCtx CtxKwargs.empty 1 0 "op" [] 0
    (.ok ()) (by decide)).2.1

/-- C7: the effective level of a category is the per-category override when
one is present in the configuration's `components` mapping and the global
default level otherwise; a leveled emit strictly below that effective
level leaves the sink state untouched — no record reaches the persisted
file and no handler I/O happens. -/
theorem effective_level_filtering (config : LogConfig)
    (category component : String) (lvl : LogLevelE) (level : Nat)
    (event message : String) (data : List (String × Json))
    (ctx : TraceContext) (st : SinkState) :
    (dictLookup category config.components = some lvl →
      TraceLogger.getLogLevel config category = lvl.toNat) ∧
    (dictLookup category config.components = none →
      TraceLogger.getLogLevel config category = config.log_level.toNat) ∧
    (level < (TraceLogger.init config component category).effectiveLevel →
      TraceLogger.logM (TraceLogger.init config component category)
        level event message data ctx st = st) := by
  refine ⟨?_, ?_, ?_⟩
  · intro h; simp [TraceLogger.getLogLevel, h]
  · intro h; simp [TraceLogger.getLogLevel, h]
  · intro h
    simp [TraceLogger.logM, Logger.logDispatch, Nat.not_le.mpr h]

/-- Witness for `effective_level_filtering`: under the default
configuration the "agents" category sits at its INFO override, and a
DEBUG-level emit leaves the sinks unchanged. -/
theorem effective_level_filtering_witness :
    TraceLogger.getLogLevel defaultLogConfig "agents" = 20 ∧
    TraceLogger.logM (TraceLogger.init defaultLogConfig "worker" "agents")
      10 "dbg" "" [] rootCtx (TraceLogger.initSink defaultLogConfig) =
      TraceLogger.initSink defaultLogConfig := by
  have h := effective_level_filtering defaultLogConfig "agents" "worker"
    LogLevelE.INFO 10 "dbg" "" [] rootCtx
    (TraceLogger.initSink defaultLogConfig)
  exact ⟨h.1 rfl, h.2.2 (by decide)⟩

/-! ## Log analysis (`src/trace_logging/analysis.py`) -/

/-- JSON whitespace (also used to model Python `str.strip` on log lines). -/
def isWsChar (c : Char) : Bool :=
  c = ' ' || c = '\n' || c = '\t' || c = '\r'

/-- Drop leading whitespace. -/
def skipWs : List Char → List Char
  | [] => []
  | c :: rest => if isWsChar c then skipWs rest else c :: rest

/-- Python `str.strip()` on a log line. -/
def pyStrip (s : String) : String :=
  ⟨((s.data.dropWhile isWsChar).reverse.dropWhile isWsChar).reverse⟩

/-- Body of a JSON string literal after the opening quote; handles the
`\n`/`\t` escapes this pipeline can produce, mapping any other escaped
character to itself. -/
def parseStringBody : Nat → List Char → Option (String × List Char)
  | 0, _ => none
  | _ + 1, [] => none
  | fuel + 1, c :: rest =>
    if c = '"' then some ("", rest)
    else if c = '\\' then
      match rest with
      | [] => none
      | e :: rest' =>
        let ec := if e = 'n' then '\n' else if e = 't' then '\t' else e
        match parseStringBody fuel rest' with
        | some (s, r) => some (⟨ec :: s.data⟩, r)
        | none => none
    else
      match parseStringBody fuel rest with
      | some (s, r) => some (⟨c :: s.data⟩, r)
      | none => none

/-- Leading decimal digits of a character stream. -/
def takeDigits : List Char → List Char × List Char
  | [] => ([], [])
  | c :: rest =>
    if c.isDigit then
      let (ds, r) := takeDigits rest
      (c :: ds, r)
    else ([], c :: rest)

/-- Numeric value of a digit string. -/
def digitsVal (ds : List Char) : Nat :=
  ds.foldl (fun a c => a * 10 + (c.toNat - 48)) 0

/-- JSON number literal (optional sign, integer part, optional fraction;
exponent forms, which this pipeline never writes, are not modelled). -/
def parseNumber (cs : List Char) : Option (ℚ × List Char) :=
  let (neg, cs₁) := match cs with
    | '-' :: r => (true, r)
    | _ => (false, cs)
  let (ds, cs₂) := takeDigits cs₁
  if ds.isEmpty then none
  else
    let intPart : ℚ := (digitsVal ds : ℚ)
    match cs₂ with
    | '.' :: cs₃ =>
      let (fs, cs₄) := takeDigits cs₃
      if fs.isEmpty then none
      else
        let q := intPart + (digitsVal fs : ℚ) / ((10 : ℚ) ^ fs.length)
        some (if neg then -q else q, cs₄)
    | _ => some (if neg then -intPart else intPart, cs₂)

mutual

/-- Recursive-descent JSON value parser (model of `json.loads`), fueled to
make termination syntactic; the top-level entry supplies ample fuel. -/
def parseJsonVal : Nat → List Char → Option (Json × List Char)
  | 0, _ => none
  | fuel + 1, cs =>
    match skipWs cs with
    | [] => none
    | c :: rest =>
      if c = 'n' then
        match rest with
        | 'u' :: 'l' :: 'l' :: r => some (.null, r)
        | _ => none
      else if c = 't' then
        match rest with
        | 'r' :: 'u' :: 'e' :: r => some (.bool true, r)
        | _ => none
      else if c = 'f' then
        match rest with
        | 'a' :: 'l' :: 's' :: 'e' :: r => some (.bool false, r)
        | _ => none
      else if c = '"' then
        match parseStringBody (rest.length + 1) rest with
        | some (s, r) => some (.str s, r)
        | none => none
      else if c = '[' then
        match skipWs rest with
        | ']' :: r => some (.arr [], r)
        | cs' =>
          match parseArrItems fuel cs' with
          | some (xs, r) => some (.arr xs, r)
          | none => none
      else if c = '{' then
        match skipWs rest with
        | '}' :: r => some (.obj [], r)
        | cs' =>
          match parseObjItems fuel cs' with
          | some (kvs, r) => some (.obj kvs, r)
          | none => none
      else
        match parseNumber (c :: rest) with
        | some (q, r) => some (.num q, r)
        | none => none

/-- Comma-separated JSON array items up to the closing bracket. -/
def parseArrItems : Nat → List Char → Option (List Json × List Char)
  | 0, _ => none
  | fuel + 1, cs =>
    match parseJsonVal fuel cs with
    | none => none
    | some (x, r) =>
      match skipWs r with
      | ',' :: r' =>
        match parseArrItems fuel r' with
        | some (xs, r'') => some (x :: xs, r'')
        | none => none
      | ']' :: r' => some ([x], r')
      | _ => none

/-- Comma-separated JSON object members up to the closing brace. -/
def parseObjItems : Nat → List Char → Option (List (String × Json) × List Char)
  | 0, _ => none
  | fuel + 1, cs =>
    match skipWs cs with
    | '"' :: r =>
      match parseStringBody (r.length + 1) r with
      | none => none
      | some (k, r₁) =>
        match skipWs r₁ with
        | ':' :: r₂ =>
          match parseJsonVal fuel r₂ with
          | none => none
          | some (v, r₃) =>
            match skipWs r₃ with
            | ',' :: r₄ =>
              match parseObjItems fuel r₄ with
              | some (kvs, r₅) => some ((k, v) :: kvs, r₅)
              | none => none
            | '}' :: r₄ => some ([(k, v)], r₄)
            | _ => none
        | _ => none
    | _ => none

end

/-- `json.loads`: parse one value and require only trailing whitespace. -/
def pyJsonLoads (s : String) : Option Json :=
  match parseJsonVal (s.length * 4 + 16) s.data with
  | some (v, rest) => if (skipWs rest).isEmpty then some v else none
  | none => none

/-- Python `s.rstrip('Z')`: remove all trailing `Z` characters. -/
def rstripZ (s : String) : String :=
  ⟨(s.data.reverse.dropWhile (fun c => c = 'Z')).reverse⟩

/-- Modelled from Python's `datetime.fromisoformat`, restricted to the
`YYYY-MM-DDTHH:MM:SS[.ffffff]` shapes this pipeline writes; the value is
the fourteen date-time digits read as an integer (monotone in time,
sub-second digits ignored), `none` on any other shape. -/
def parseIsoTimestamp (s : String) : Option Int :=
  match s.data with
  | y1 :: y2 :: y3 :: y4 :: '-' :: m1 :: m2 :: '-' :: d1 :: d2 :: 'T' ::
      h1 :: h2 :: ':' :: mi1 :: mi2 :: ':' :: s1 :: s2 :: rest =>
    let ds := [y1, y2, y3, y4, m1, m2, d1, d2, h1, h2, mi1, mi2, s1, s2]
    let fracOk := match rest with
      | [] => true
      | '.' :: fs => !fs.isEmpty && fs.all Char.isDigit
      | _ => false
    if ds.all Char.isDigit && fracOk then some (digitsVal ds : Int) else none
  | _ => none

/-- Parsed log entry (`analysis.LogEntry`). The dynamically-typed fields a
parsed line may carry with arbitrary JSON types are kept as `Json`. -/
structure LogEntry where
  timestamp : Int
  level : Json
  component : Json
  event : Json
  message : Json
  data : Json
  context : Json
  exception : Option Json
  raw : String

/-- Parse pipeline inside the `try` of `LogEntry.from_json`: `json.loads`,
the mandatory `data['timestamp']` subscript (`KeyError` when absent,
`TypeError` when the loaded value is not a dict), `.rstrip('Z')`
(`AttributeError` when the timestamp is not a string) and `fromisoformat`
(`ValueError` on shape). The `error` payload is the failure text
interpolated into the synthesized message. -/
def parseRecordLine (json_str : String) :
    Except String (Int × List (String × Json)) :=
  match pyJsonLoads json_str with
  | none => .error "invalid JSON"
  | some j =>
    match j with
    | .obj fields =>
      match dictLookup "timestamp" fields with
      | none => .error "KeyError: timestamp"
      | some tv =>
        match tv with
        | .str t =>
          match parseIsoTimestamp (rstripZ t) with
          | some ts => .ok (ts, fields)
          | none => .error "invalid isoformat string"
        | _ => .error "AttributeError: rstrip"
    | _ => .error "TypeError: not a dict"

/-- `LogEntry.from_json` (`analysis.py` lines 28–55): a successfully parsed
line populates the entry with `.get`-with-default fields; any failure
yields the synthesized ERROR entry carrying the failure description and
the raw line, with `now` standing for `datetime.utcnow()`. -/
def LogEntry.from_json (now : Int) (json_str : String) : LogEntry :=
  match parseRecordLine json_str with
  | .ok (ts, fields) =>
      { timestamp := ts
        level := (dictLookup "level" fields).getD (.str "INFO")
        component := (dictLookup "component" fields).getD (.str "")
        event := (dictLookup "event" fields).getD (.str "")
        message := (dictLookup "message" fields).getD (.str "")
        data := (dictLookup "data" fields).getD (.obj [])
        context := (dictLookup "context" fields).getD (.obj [])
        exception := dictLookup "exception" fields
        raw := json_str }
  | .error errm =>
      { timestamp := now
        level := .str "ERROR"
        component := .str "parser"
        event := .str "parse_error"
        message := .str ("Failed to parse log: " ++ errm)
        data := .obj [("raw", .str json_str)]
        context := .obj []
        exception := none
        raw := json_str }

/-- Filter arguments of `LogReader.read_logs`. -/
structure ReadFilters where
  start_time : Option Int
  end_time : Option Int
  level : Option String
  trace_id : Option String
  limit : Option Nat

/-- Filter-free read (`read_logs()` with default arguments). -/
def ReadFilters.noFilters : ReadFilters := ⟨none, none, none, none, none⟩

/-- Filter chain of the `read_logs` loop body (`analysis.py` lines
111–119): `some false` skips the entry, `some true` yields it, `none`
models the exception raised by `entry.context.get` on a non-dict context
(caught by the per-file handler). The Python truthiness guards (`if
start_time and ...`) are preserved — an empty-string level or trace id
disables that filter. -/
def passFilters (f : ReadFilters) (e : LogEntry) : Option Bool :=
  if (match f.start_time with
      | some t => decide (e.timestamp < t)
      | none => false) then some false
  else if (match f.end_time with
      | some t => decide (t < e.timestamp)
      | none => false) then some false
  else if (match f.level with
      | some l => decide (l ≠ "") && !(e.level.eqStr l)
      | none => false) then some false
  else
    match f.trace_id with
    | some t =>
      if t = "" then some true
      else
        match e.context.dictGet "trace_id" with
        | none => none
        | some got =>
          match got with
          | some v => if v.eqStr t then some true else some false
          | none => some false
    | none => some true

/-- Line loop of `read_logs` over one log file (`analysis.py` lines
104–126): the limit guard (`if limit and count >= limit`) runs before each
parse, each line is stripped and parsed via `from_json`, filters are
applied, and an exception inside the loop is caught by the per-file
`try`/`except`, ending this file's scan with the entries already yielded. -/
def readLogsFrom (now : Int) (f : ReadFilters) :
    List String → Nat → List LogEntry
  | [], _ => []
  | line :: rest, count =>
    if (match f.limit with
        | some l => decide (l ≠ 0) && decide (l ≤ count)
        | none => false) then []
    else
      let e := LogEntry.from_json now (pyStrip line)
      match passFilters f e with
      | none => []
      | some true => e :: readLogsFrom now f rest (count + 1)
      | some false => readLogsFrom now f rest count

/-- `LogReader.read_logs` restricted to a single log file, given as its
list of lines. -/
def read_logs (now : Int) (lines : List String) (f : ReadFilters) :
    List LogEntry :=
  readLogsFrom now f lines 0

/-- Duration-sample collection of `analyze_performance` (`analysis.py`
lines 230–236): keeps, in order, the truthy `duration_seconds` values of
records whose event equals `"<operation>.complete"`; `none` models the
exception of `.get` on a matching record whose `data` is not a dict. -/
def collectDurations (operation : String) : List LogEntry → Option (List Json)
  | [] => some []
  | log :: rest =>
    if log.event.eqStr (operation ++ ".complete") then
      match log.data.dictGet "duration_seconds" with
      | none => none
      | some dv =>
        match dv with
        | some v =>
          if v.isTruthy then
            match collectDurations operation rest with
            | none => none
            | some ds => some (v :: ds)
          else collectDurations operation rest
        | none => collectDurations operation rest
    else collectDurations operation rest

/-- Numeric view of a sample list; `none` when any sample is not a number
(Python would raise `TypeError` while sorting or aggregating it). -/
def allNums : List Json → Option (List ℚ)
  | [] => some []
  | v :: rest =>
    match v.asNum with
    | some q => (allNums rest).map (fun qs => q :: qs)
    | none => none

/-- Python `min(list)` on a non-empty list (empty case unreachable where
used, as `min()` on an empty list raises). -/
def pyListMin : List ℚ → ℚ
  | [] => 0
  | x :: xs => xs.foldl min x

/-- Python `max(list)` on a non-empty list. -/
def pyListMax : List ℚ → ℚ
  | [] => 0
  | x :: xs => xs.foldl max x

/-- Statistics record returned by `analyze_performance`. -/
structure PerfStats where
  operation : String
  count : Nat
  min_seconds : ℚ
  max_seconds : ℚ
  avg_seconds : ℚ
  median_seconds : ℚ
  p95_seconds : Option ℚ
  p99_seconds : Option ℚ

/-- Result of `analyze_performance`: the no-data error dict or the
statistics dict. -/
inductive PerfResult where
  | err (msg : String)
  | stats (s : PerfStats)

/-- `LogAnalyzer.analyze_performance` (`analysis.py` lines 212–253) over an
already-collected record list (the `read_logs(start_time=...)` collection
step is `read_logs` above). The outer `none` models a raised exception:
`.get` on a matching record's non-dict `data`, or sorting/aggregating
samples that are not all numbers. `durations.sort()` is modelled by
`insertionSort` (stable, agreeing with Python's sort on rationals), and
the percentile indices `int(count*0.95)` / `int(count*0.99)` by the floor
divisions `count*95/100` / `count*99/100`, which agree with the float
computation at realistic sample counts. -/
def analyze_performance (logs : List LogEntry) (operation : String) :
    Option PerfResult :=
  match collectDurations operation logs with
  | none => none
  | some ds =>
    if ds.isEmpty then some (.err "No performance data found")
    else
      match allNums ds with
      | none => none
      | some qs =>
        let s := List.insertionSort (· ≤ ·) qs
        let count := s.length
        some (.stats
          { operation := operation
            count := count
            min_seconds := pyListMin s
            max_seconds := pyListMax s
            avg_seconds := s.sum / (count : ℚ)
            median_seconds := s.getD (count / 2) 0
            p95_seconds :=
              if 20 < count then some (s.getD (count * 95 / 100) 0) else none
            p99_seconds :=
              if 100 < count then some (s.getD (count * 99 / 100) 0) else none })

/-! ## Helper lemmas for the analysis layer -/

/-- With no result limit, the running count never influences the scan. -/
theorem readLogsFrom_limit_none (now : Int) (f : ReadFilters)
    (hlim : f.limit = none) :
    ∀ (lines : List String) (c c' : Nat),
      readLogsFrom now f lines c = readLogsFrom now f lines c' := by
  intro lines
  induction lines with
  | nil => intro c c'; rfl
  | cons line rest ih =>
    intro c c'
    simp only [readLogsFrom, hlim]
    cases hp : passFilters f (LogEntry.from_json now (pyStrip line)) with
    | none => simp [hp]
    | some b =>
      cases b
      · simp [hp]; exact ih c c'
      · simp [hp]; exact ih (c + 1) (c' + 1)

/-- Folded minimum is the accumulator or one of the list's elements. -/
theorem foldl_min_choice (xs : List ℚ) (a : ℚ) :
    xs.foldl min a = a ∨ xs.foldl min a ∈ xs := by
  induction xs generalizing a with
  | nil => left; rfl
  | cons x xs ih =>
    rcases ih (min a x) with h | h
    · rcases min_choice a x with hc | hc
      · left; rw [List.foldl_cons, h, hc]
      · right; rw [List.foldl_cons, h, hc]; exact List.mem_cons_self _ _
    · right; rw [List.foldl_cons]; exact List.mem_cons_of_mem _ h

/-- Folded minimum bounds the accumulator and every element from below. -/
theorem foldl_min_le (xs : List ℚ) (a : ℚ) :
    xs.foldl min a ≤ a ∧ ∀ x ∈ xs, xs.foldl min a ≤ x := by
  induction xs generalizing a with
  | nil =>
    refine ⟨le_refl a, ?_⟩
    intro x hx
    simp at hx
  | cons y ys ih =>
    obtain ⟨h1, h2⟩ := ih (min a y)
    refine ⟨?_, ?_⟩
    · rw [List.foldl_cons]; exact le_trans h1 (min_le_left a y)
    · intro x hx
      rcases List.mem_cons.mp hx with hh | hh
      · subst hh; rw [List.foldl_cons]; exact le_trans h1 (min_le_right a x)
      · rw [List.foldl_cons]; exact h2 x hh

/-- Folded maximum is the accumulator or one of the list's elements. -/
theorem foldl_max_choice (xs : List ℚ) (a : ℚ) :
    xs.foldl max a = a ∨ xs.foldl max a ∈ xs := by
  induction xs generalizing a with
  | nil => left; rfl
  | cons x xs ih =>
    rcases ih (max a x) with h | h
    · rcases max_choice a x with hc | hc
      · left; rw [List.foldl_cons, h, hc]
      · right; rw [List.foldl_cons, h, hc]; exact List.mem_cons_self _ _
    · right; rw [List.foldl_cons]; exact List.mem_cons_of_mem _ h

/-- Folded maximum bounds the accumulator and every element from above. -/
theorem foldl_max_ge (xs : List ℚ) (a : ℚ) :
    a ≤ xs.foldl max a ∧ ∀ x ∈ xs, x ≤ xs.foldl max a := by
  induction xs generalizing a with
  | nil =>
    refine ⟨le_refl a, ?_⟩
    intro x hx
    simp at hx
  | cons y ys ih =>
    obtain ⟨h1, h2⟩ := ih (max a y)
    refine ⟨?_, ?_⟩
    · rw [List.foldl_cons]; exact le_trans (le_max_left a y) h1
    · intro x hx
      rcases List.mem_cons.mp hx with hh | hh
      · subst hh; rw [List.foldl_cons]; exact le_trans (le_max_right a x) h1
      · rw [List.foldl_cons]; exact h2 x hh

/-- `min()` of a non-empty list is one of its elements. -/
theorem pyListMin_mem (l : List ℚ) (h : l ≠ []) : pyListMin l ∈ l := by
  cases l with
  | nil => exact absurd rfl h
  | cons x xs =>
    rcases foldl_min_choice xs x with hc | hc
    · simp only [pyListMin, hc]; exact List.mem_cons_self _ _
    · simp only [pyListMin]; exact List.mem_cons_of_mem _ hc

/-- `min()` of a list bounds each of its elements from below. -/
theorem pyListMin_le (l : List ℚ) : ∀ x ∈ l, pyListMin l ≤ x := by
  cases l with
  | nil => intro x hx; simp at hx
  | cons y ys =>
    intro x hx
    rcases List.mem_cons.mp hx with hh | hh
    · subst hh; exact (foldl_min_le ys x).1
    · exact (foldl_min_le ys y).2 x hh

/-- `max()` of a non-empty list is one of its elements. -/
theorem pyListMax_mem (l : List ℚ) (h : l ≠ []) : pyListMax l ∈ l := by
  cases l with
  | nil => exact absurd rfl h
  | cons x xs =>
    rcases foldl_max_choice xs x with hc | hc
    · simp only [pyListMax, hc]; exact List.mem_cons_self _ _
    · simp only [pyListMax]; exact List.mem_cons_of_mem _ hc

/-- `max()` of a list bounds each of its elements from above. -/
theorem pyListMax_ge (l : List ℚ) : ∀ x ∈ l, x ≤ pyListMax l := by
  cases l with
  | nil => intro x hx; simp at hx
  | cons y ys =>
    intro x hx
    rcases List.mem_cons.mp hx with hh | hh
    · subst hh; exact (foldl_max_ge ys x).1
    · exact (foldl_max_ge ys y).2 x hh

/-- In-bounds `getD` returns an element of the list. -/
theorem getD_mem_of_lt (l : List ℚ) (i : Nat) (d : ℚ) (h : i < l.length) :
    l.getD i d ∈ l := by
  rw [List.getD_eq_getElem l d h]
  exact List.getElem_mem h

/-- Records whose every matching complete entry carries a falsy or missing
duration collect an empty sample list. -/
theorem collectDurations_all_falsy (operation : String) :
    ∀ (logs : List LogEntry),
      (∀ l ∈ logs, l.event.eqStr (operation ++ ".complete") = true →
        ∃ fs, l.data = .obj fs ∧
          (dictLookup "duration_seconds" fs = none ∨
           ∃ v, dictLookup "duration_seconds" fs = some v ∧
                v.isTruthy = false)) →
      collectDurations operation logs = some [] := by
  intro logs
  induction logs with
  | nil => intro _; rfl
  | cons l rest ih =>
    intro h
    have hrest := ih (fun x hx => h x (List.mem_cons_of_mem _ hx))
    by_cases hev : l.event.eqStr (operation ++ ".complete") = true
    · obtain ⟨fs, hdata, hdur⟩ := h l (List.mem_cons_self _ _) hev
      simp only [collectDurations, hev, if_true, hdata, Json.dictGet]
      rcases hdur with hnone | ⟨v, hv, hfalse⟩
      · rw [hnone]; exact hrest
      · rw [hv]; simp only [hfalse, Bool.false_eq_true, if_false]
        exact hrest
    · simp only [collectDurations]
      rw [if_neg hev]
      exact hrest

/-- Complete-event record fixture with a numeric duration sample. -/
def perfEntry (d : ℚ) : LogEntry :=
  { timestamp := 0, level := .str "INFO", component := .str "c",
    event := .str "op.complete", message := .str "",
    data := .obj [("duration_seconds", .num d)], context := .obj [],
    exception := none, raw := "" }

/-- Complete-event record fixture whose duration sample is zero (falsy). -/
def zeroDurEntry : LogEntry := perfEntry 0

/-- C8: a line that fails the parse pipeline never raises — `from_json`
synthesizes an ERROR-level entry whose message carries the parse-failure
description and whose data carries the raw line text — and a malformed
line never aborts a `read_logs` scan: the scan yields the synthesized
entry and continues with the following lines. -/
theorem malformed_line_synthesized (now : Int) (line : String)
    (rest : List String) (errm : String)
    (h : parseRecordLine (pyStrip line) = .error errm) :
    (LogEntry.from_json now (pyStrip line)).level = .str "ERROR" ∧
    (LogEntry.from_json now (pyStrip line)).message =
      .str ("Failed to parse log: " ++ errm) ∧
    (LogEntry.from_json now (pyStrip line)).data =
      .obj [("raw", .str (pyStrip line))] ∧
    read_logs now (line :: rest) ReadFilters.noFilters =
      LogEntry.from_json now (pyStrip line) ::
        read_logs now rest ReadFilters.noFilters := by
  refine ⟨?_, ?_, ?_, ?_⟩
  · simp [LogEntry.from_json, h]
  · simp [LogEntry.from_json, h]
  · simp [LogEntry.from_json, h]
  · have hstep : read_logs now (line :: rest) ReadFilters.noFilters =
        LogEntry.from_json now (pyStrip line) ::
          readLogsFrom now ReadFilters.noFilters rest 1 := rfl
    rw [hstep]
    exact congrArg _ (readLogsFrom_limit_none now _ rfl rest 1 0)

/-- Witness for `malformed_line_synthesized` on a concrete malformed line. -/
theorem malformed_line_synthesized_witness :
    parseRecordLine (pyStrip "not json") = .error "invalid JSON" ∧
    (LogEntry.from_json 0 (pyStrip "not json")).level = .str "ERROR" ∧
    read_logs 0 ["not json"] ReadFilters.noFilters =
      [LogEntry.from_json 0 (pyStrip "not json")] := by
  have h := malformed_line_synthesized 0 "not json" [] "invalid JSON" rfl
  exact ⟨rfl, h.1, h.2.2.2⟩

/-- C9: with a non-empty (numeric) collected duration-sample list,
`analyze_performance` reports statistics over exactly those samples: their
count, a minimum that is a sample and bounds all samples below, a maximum
that is a sample and bounds all samples above, the mean `sum/count`, and a
median drawn from the samples; `p95_seconds` is present exactly when the
sample count exceeds 20 (and is then itself a sample), and `p99_seconds`
exactly when the count exceeds 100. -/
theorem analyze_performance_stats (logs : List LogEntry) (operation : String)
    (ds : List Json) (qs : List ℚ)
    (hds : collectDurations operation logs = some ds)
    (hqs : allNums ds = some qs) (hne : qs ≠ []) :
    ∃ st, analyze_performance logs operation = some (.stats st) ∧
      st.count = qs.length ∧
      st.min_seconds ∈ qs ∧ (∀ x ∈ qs, st.min_seconds ≤ x) ∧
      st.max_seconds ∈ qs ∧ (∀ x ∈ qs, x ≤ st.max_seconds) ∧
      st.avg_seconds = qs.sum / (qs.length : ℚ) ∧
      st.median_seconds ∈ qs ∧
      (st.p95_seconds.isSome ↔ 20 < qs.length) ∧
      (∀ v, st.p95_seconds = some v → v ∈ qs) ∧
      (st.p99_seconds.isSome ↔ 100 < qs.length) ∧
      (∀ v, st.p99_seconds = some v → v ∈ qs) := by
  have hdne : ds ≠ [] := by
    intro hd
    subst hd
    simp only [allNums, Option.some.injEq] at hqs
    exact hne hqs.symm
  have hempty : ds.isEmpty = false := by
    cases ds with
    | nil => exact absurd rfl hdne
    | cons x xs => rfl
  have hperm : (List.insertionSort (· ≤ ·) qs).Perm qs :=
    List.perm_insertionSort _ qs
  have hlen : (List.insertionSort (· ≤ ·) qs).length = qs.length :=
    hperm.length_eq
  have hq0 : qs.length ≠ 0 := fun h0 => hne (List.length_eq_zero.mp h0)
  have hsne : List.insertionSort (· ≤ ·) qs ≠ [] := by
    intro hnil
    exact hq0 (by rw [← hlen, hnil]; rfl)
  have hspos : 0 < (List.insertionSort (· ≤ ·) qs).length := by
    rw [hlen]; exact Nat.pos_of_ne_zero hq0
  refine ⟨{ operation := operation
            count := (List.insertionSort (· ≤ ·) qs).length
            min_seconds := pyListMin (List.insertionSort (· ≤ ·) qs)
            max_seconds := pyListMax (List.insertionSort (· ≤ ·) qs)
            avg_seconds := (List.insertionSort (· ≤ ·) qs).sum /
              (((List.insertionSort (· ≤ ·) qs).length : ℚ))
            median_seconds := (List.insertionSort (· ≤ ·) qs).getD
              ((List.insertionSort (· ≤ ·) qs).length / 2) 0
            p95_seconds :=
              if 20 < (List.insertionSort (· ≤ ·) qs).length then
                some ((List.insertionSort (· ≤ ·) qs).getD
                  ((List.insertionSort (· ≤ ·) qs).length * 95 / 100) 0)
              else none
            p99_seconds :=
              if 100 < (List.insertionSort (· ≤ ·) qs).length then
                some ((List.insertionSort (· ≤ ·) qs).getD
                  ((List.insertionSort (· ≤ ·) qs).length * 99 / 100) 0)
              else none },
    ?_, ?_, ?_, ?_, ?_, ?_, ?_, ?_, ?_, ?_, ?_, ?_⟩
  · show analyze_performance logs operation = _
    unfold analyze_performance
    rw [hds]
    simp only [hempty, Bool.false_eq_true, if_false]
    rw [hqs]
  · exact hlen
  · exact hperm.mem_iff.mp (pyListMin_mem _ hsne)
  · intro x hx
    exact pyListMin_le _ x (hperm.mem_iff.mpr hx)
  · exact hperm.mem_iff.mp (pyListMax_mem _ hsne)
  · intro x hx
    exact pyListMax_ge _ x (hperm.mem_iff.mpr hx)
  · rw [hperm.sum_eq, hlen]
  · refine hperm.mem_iff.mp (getD_mem_of_lt _ _ _ ?_)
    omega
  · by_cases hc : 20 < qs.length <;> simp [hc, hlen]
  · intro v hv
    dsimp only at hv
    by_cases hc : 20 < qs.length
    · rw [if_pos (hlen ▸ hc)] at hv
      have hx := Option.some.inj hv
      exact hx ▸ hperm.mem_iff.mp (getD_mem_of_lt _ _ _ (by omega))
    · rw [if_neg (by rw [hlen]; exact hc)] at hv
      exact nomatch hv
  · by_cases hc : 100 < qs.length <;> simp [hc, hlen]
  · intro v hv
    dsimp only at hv
    by_cases hc : 100 < qs.length
    · rw [if_pos (hlen ▸ hc)] at hv
      have hx := Option.some.inj hv
      exact hx ▸ hperm.mem_iff.mp (getD_mem_of_lt _ _ _ (by omega))
    · rw [if_neg (by rw [hlen]; exact hc)] at hv
      exact nomatch hv

/-- Witness for `analyze_performance_stats` on two concrete samples. -/
theorem analyze_performance_stats_witness :
    ∃ st, analyze_performance [perfEntry 3, perfEntry 1] "op" =
        some (.stats st) ∧
      st.count = [(3 : ℚ), 1].length ∧
      st.min_seconds ∈ [(3 : ℚ), 1] ∧
      (∀ x ∈ [(3 : ℚ), 1], st.min_seconds ≤ x) ∧
      st.max_seconds ∈ [(3 : ℚ), 1] ∧
      (∀ x ∈ [(3 : ℚ), 1], x ≤ st.max_seconds) ∧
      st.avg_seconds = [(3 : ℚ), 1].sum / (([(3 : ℚ), 1].length : ℚ)) ∧
      st.median_seconds ∈ [(3 : ℚ), 1] ∧
      (st.p95_seconds.isSome ↔ 20 < [(3 : ℚ), 1].length) ∧
      (∀ v, st.p95_seconds = some v → v ∈ [(3 : ℚ), 1]) ∧
      (st.p99_seconds.isSome ↔ 100 < [(3 : ℚ), 1].length) ∧
      (∀ v, st.p99_seconds = some v → v ∈ [(3 : ℚ), 1]) :=
  analyze_performance_stats [perfEntry 3, perfEntry 1] "op"
    [.num 3, .num 1] [3, 1] rfl rfl (by simp)

/-- C10: a `"<operation>.complete"` record whose `duration_seconds` is
missing or falsy (zero, empty, null, false) contributes nothing to the
collected sample list — hence to none of the reported statistics — and
when every matching record carries a falsy-or-missing duration,
`analyze_performance` returns the `'No performance data found'` error
result even though matching complete records exist. -/
theorem falsy_durations_excluded (operation : String) (e : LogEntry)
    (rest logs : List LogEntry) :
    (e.event.eqStr (operation ++ ".complete") = true →
      ∀ fs, e.data = .obj fs →
      (dictLookup "duration_seconds" fs = none ∨
        ∃ v, dictLookup "duration_seconds" fs = some v ∧
             v.isTruthy = false) →
      collectDurations operation (e :: rest) =
        collectDurations operation rest) ∧
    ((∀ l ∈ logs, l.event.eqStr (operation ++ ".complete") = true →
        ∃ fs, l.data = .obj fs ∧
          (dictLookup "duration_seconds" fs = none ∨
           ∃ v, dictLookup "duration_seconds" fs = some v ∧
                v.isTruthy = false)) →
      (∃ l ∈ logs, l.event.eqStr (operation ++ ".complete") = true) →
      analyze_performance logs operation =
        some (.err "No performance data found")) := by
  constructor
  · intro hev fs hdata hdur
    simp only [collectDurations, hev, if_true, hdata, Json.dictGet]
    rcases hdur with hnone | ⟨v, hv, hfalse⟩
    · rw [hnone]
    · rw [hv]
      simp only [hfalse, Bool.false_eq_true, if_false]
  · intro hall _
    have hc := collectDurations_all_falsy operation logs hall
    unfold analyze_performance
    rw [hc]
    rfl

/-- Witness for `falsy_durations_excluded`: one complete record with a
zero duration produces the no-data error result. -/
theorem falsy_durations_excluded_witness :
    analyze_performance [zeroDurEntry] "op" =
      some (.err "No performance data found") :=
  (falsy_durations_excluded "op" zeroDurEntry [] [zeroDurEntry]).2
    (by
      intro l hl hev
      rcases List.mem_cons.mp hl with hh | hh
      · subst hh
        exact ⟨[("duration_seconds", .num 0)], rfl,
          .inr ⟨.num 0, rfl, by decide⟩⟩
      · simp at hh)
    ⟨zeroDurEntry, List.mem_cons_self _ _, rfl⟩
